import Mathlib

/-!
# Verification of the `GetSwitchPorts.snmp` output-parsing layer

A shallow embedding of `src/GetSwitchPorts/snmp.py`: the module wraps the
Net-SNMP command-line tools, builds a command string per query, runs it
through a subprocess, classifies failures by inspecting stderr, and parses
stdout into scalar values, (OID, value) pairs, or table rows.

Modelling conventions:
* Python byte strings and text strings are both modelled as `List Char`
  (the module only ever decodes with UTF-8 and every marker it matches on is
  ASCII, so decoding is the identity on the fragments that matter).
* The external collaborators — `socket.getaddrinfo`, `ipaddress.ip_address`
  and `subprocess.run` — are fields of an explicit `Env` record; each query
  function threads it and also returns the list of command strings it handed
  to `run`, so "no subprocess was spawned" is an assertion about that list.
* A Python exception is modelled as an `Except` error value; an uncaught
  `IndexError` inside a parsing loop is modelled as `Option.none`.
-/

namespace SnmpSpec

/-- Predicate `leadsWith pat l` is true iff `pat` is a prefix of `l`
(Python: `l.startswith(pat)`), written out so the proofs below can unfold it. -/
def leadsWith : List Char → List Char → Bool
  | [], _ => true
  | _ :: _, [] => false
  | p :: ps, c :: cs => p = c && leadsWith ps cs

/-- Index of the first occurrence of `pat` in `l` (Python: `l.find(pat)`),
`none` when `pat` does not occur. -/
def findSub (pat : List Char) : List Char → Option Nat
  | [] => if leadsWith pat [] then some 0 else none
  | c :: t =>
    if leadsWith pat (c :: t) then some 0
    else (findSub pat t).map (· + 1)

/-- Python's substring test `pat in l`. -/
def containsSub (pat l : List Char) : Bool :=
  (findSub pat l).isSome

/-- Python's `l.split(pat, 1)`: split at the first occurrence of `pat` only.
Yields `[l]` when `pat` does not occur, and exactly two pieces otherwise. -/
def splitOnce (pat l : List Char) : List (List Char) :=
  match findSub pat l with
  | none => [l]
  | some i => [l.take i, l.drop (i + pat.length)]

/-- Python's `bytes.splitlines()`: split at `\n`, `\r` or `\r\n`, with no
empty trailing line for a trailing terminator. -/
def splitlinesGo (cur : List Char) : List Char → List (List Char)
  | [] => if cur.isEmpty then [] else [cur.reverse]
  | c :: rest =>
    if c = '\n' then cur.reverse :: splitlinesGo [] rest
    else if c = '\r' then
      match rest with
      | c2 :: rest2 =>
        if c2 = '\n' then cur.reverse :: splitlinesGo [] rest2
        else cur.reverse :: splitlinesGo [] (c2 :: rest2)
      | [] => [cur.reverse]
    else splitlinesGo (c :: cur) rest

/-- Python's `bytes.splitlines()`: split at `\n`, `\r` or `\r\n`, with no
empty trailing line for a trailing terminator. `splitlinesGo` holds the
characters of the current line in reverse. -/
def splitlinesB (l : List Char) : List (List Char) :=
  splitlinesGo [] l

/-- Python's string comparison `a <= b`: lexicographic on code points. -/
def strLe : List Char → List Char → Bool
  | [], _ => true
  | _ :: _, [] => false
  | a :: as, b :: bs =>
    if a = b then strLe as bs else decide (a.toNat < b.toNat)

/-- Python's `' '.join(oids)`. -/
def joinSpace : List (List Char) → List Char
  | [] => []
  | [x] => x
  | x :: y :: t => x ++ ' ' :: joinSpace (y :: t)

/-! ## Marker strings matched against command output (snmp.py)

The module matches these byte-for-byte, case-sensitively. -/

def sepEq : List Char := " = ".data

def noSuchInstanceMark : List Char := "No Such Instance".data

def noResponseMark : List Char := "No Response from".data

def unknownHostMark : List Char := "Unknown host".data

def wasThatATableMark : List Char := "Was that a table?".data

/-- The reserved table field delimiter: the non-printable ASCII
Record Separator character (`delimiter = '\x1E'` in `snmptable`). -/
def delimiterRS : Char := '\x1E'

/-! ## Exceptions and their messages

`snmp.py` signals known failures with `SNMPError(msg)` and unknown ones with
`ChildProcessError(msg)`; `validate_ip_address` also raises `SNMPError`.
The different "kinds" of SNMPError are distinguished only by their message
text, so the message builders below transcribe the `format` strings. -/

inductive PyErr where
  | snmpError (msg : List Char)
  | childProcessError (msg : List Char)
  | indexError
  | keyError
  | typeError
  deriving DecidableEq, Repr

/-- Message `"Invalid Address: {0} does not appear to be a valid hostname / IP
address".format(ipaddress)` (snmp.py:50). -/
def invalidAddressMsg (ipaddress : List Char) : List Char :=
  "Invalid Address: ".data ++ ipaddress ++
    " does not appear to be a valid hostname / IP address".data

/-- Message `"Timeout: no response received from {0}:{1}".format(ipaddress, port)`
(snmp.py:65). -/
def timeoutMsg (ipaddress port : List Char) : List Char :=
  "Timeout: no response received from ".data ++ ipaddress ++ ":".data ++ port

/-- Message `"Unknown host: the SNMP command could not identify {0} as a valid
host.".format(ipaddress)` (snmp.py:80). -/
def unknownHostMsg (ipaddress : List Char) : List Char :=
  "Unknown host: the SNMP command could not identify ".data ++ ipaddress ++
    " as a valid host.".data

/-- The `SNMPError` message of `snmptable` for a non-table OID (snmp.py:270). -/
def notATableMsg (oid : List Char) : List Char :=
  "The snmptable command could not identify ".data ++ oid ++
    " as a table. Please be sure the OID is correct, and that your net-snmp installation has a MIB available for that OID.".data

/-- The `ChildProcessError` message of `handle_unknown_error` (snmp.py:93).
(Python renders the stderr bytes with `str`, adding a `b` repr wrapper; the
wrapper characters are irrelevant to every claim and are elided.) -/
def unknownErrorMsg (cmdstr stderrBytes : List Char) : List Char :=
  "The SNMP command failed. \nAttempted Command: ".data ++ cmdstr ++
    "\n Error received: ".data ++ stderrBytes

/-! ## The external collaborators

`subprocess.run`, `socket.getaddrinfo` and `ipaddress.ip_address` are the
system facilities `snmp.py` builds on; they are modelled as an explicit
environment record threaded through every query function. -/

/-- The `IPv4Address` / `IPv6Address` object produced by
`ipaddress.ip_address`; only its canonical `str()` rendering is observable
in this layer. -/
structure IPAddr where
  canonical : List Char
  deriving DecidableEq, Repr

/-- A Python value as returned by `validate_ip_address`: the source's type
annotation promises `str`, but the code can also hand back the address
object itself. -/
inductive PyVal where
  | str (s : List Char)
  | addrObj (a : IPAddr)
  deriving DecidableEq, Repr

/-- What Python's `format` interpolates for a `PyVal`: `str()` of an
address object is its canonical form. -/
def PyVal.formatStr : PyVal → List Char
  | .str s => s
  | .addrObj a => a.canonical

/-- Python's `subprocess.CompletedProcess`: exit status plus captured output bytes. -/
structure CompletedProcess where
  returncode : Int
  stdout : List Char
  stderr : List Char
  deriving DecidableEq, Repr

/-- The system environment:
* `getaddrinfo ip` is the numeric address `getaddrinfo(ip, None)[0][4][0]`,
  `none` modelling a raised `socket.gaierror`;
* `parseIpAddress s` is `ipaddress.ip_address(s)`, `none` modelling a raised
  `ValueError`;
* `run cmdstr` is `subprocess.run(cmdstr, shell=True, stdout=PIPE,
  stderr=PIPE)`. -/
structure Env where
  getaddrinfo : List Char → Option (List Char)
  parseIpAddress : List Char → Option IPAddr
  run : List Char → CompletedProcess

/-! ## `validate_ip_address` (snmp.py:38-51) -/

/-- Transcribes `ipaddr = getaddrinfo(ipaddress, None)[0][4][0]; ipaddr =
ip_address(ipaddr); return ipaddr` with `gaierror` / `ValueError` both
mapped to the same `SNMPError`. Note that the code returns the address
*object* produced by `ip_address`, although its docstring says "then back
into a string" and its annotation says `-> str`. -/
def validate_ip_address (env : Env) (ipaddress : List Char) :
    Except PyErr PyVal :=
  match env.getaddrinfo ipaddress with
  | none => .error (.snmpError (invalidAddressMsg ipaddress))
  | some cand =>
    match env.parseIpAddress cand with
    | none => .error (.snmpError (invalidAddressMsg ipaddress))
    | some a => .ok (.addrObj a)

/-! ## Failure classification (snmp.py:54-96)

Each helper either raises (`some err`) or falls through (`none`). -/

/-- Transcribes `check_for_timeout` (snmp.py:54-67). -/
def check_for_timeout (cmd : CompletedProcess) (ipaddress port : List Char) :
    Option PyErr :=
  if containsSub noResponseMark cmd.stderr then
    some (.snmpError (timeoutMsg ipaddress port))
  else none

/-- Transcribes `check_for_unknown_host` (snmp.py:70-83). Defined in the module but
never called by any of the query functions. -/
def check_for_unknown_host (cmd : CompletedProcess) (ipaddress : List Char) :
    Option PyErr :=
  if containsSub unknownHostMark cmd.stderr then
    some (.snmpError (unknownHostMsg ipaddress))
  else none

/-- Transcribes `handle_unknown_error` (snmp.py:85-96): unconditionally raises. -/
def handle_unknown_error (cmdstr : List Char) (cmd : CompletedProcess) :
    PyErr :=
  .childProcessError (unknownErrorMsg cmdstr cmd.stderr)

/-- The error branch shared by `snmpget`, `snmpgetbulk` and `snmpwalk`
(e.g. snmp.py:119-124): timeout check, then the catch-all. -/
def classifyGet (cmd : CompletedProcess) (cmdstr ipaddress port : List Char) :
    PyErr :=
  match check_for_timeout cmd ipaddress port with
  | some e => e
  | none => handle_unknown_error cmdstr cmd

/-- The error branch of `snmptable` (snmp.py:265-274): timeout check, then
the "Was that a table?" check, then the catch-all. -/
def classifyTable (cmd : CompletedProcess)
    (cmdstr ipaddress port oid : List Char) : PyErr :=
  match check_for_timeout cmd ipaddress port with
  | some e => e
  | none =>
    if containsSub wasThatATableMark cmd.stderr then
      .snmpError (notATableMsg oid)
    else handle_unknown_error cmdstr cmd

/-! ## `snmpget` (snmp.py:99-135) -/

/-- The command string of `snmpget` (snmp.py:113-114). -/
def snmpgetCmd (timeout community ipaddress port oid : List Char) :
    List Char :=
  "snmpget -Oqv -Pe -t ".data ++ timeout ++ " -r 0 -v 2c -c ".data ++
    community ++ " ".data ++ ipaddress ++ ":".data ++ port ++ " ".data ++ oid

/-- The result processing of `snmpget` (snmp.py:126-135): decode stdout,
return `None` when it contains the No Such Instance marker, otherwise the
decoded text unchanged. -/
def snmpget_process (stdoutBytes : List Char) : Option (List Char) :=
  if containsSub noSuchInstanceMark stdoutBytes then none
  else some stdoutBytes

/-- Transcribes `snmpget(community, ipaddress, oid, port, timeout)`. The second
component of the result records the command strings passed to
`subprocess.run`. -/
def snmpget (env : Env) (community ipaddress oid port timeout : List Char) :
    Except PyErr (Option (List Char)) × List (List Char) :=
  match validate_ip_address env ipaddress with
  | .error e => (.error e, [])
  | .ok ipv =>
    let cmdstr := snmpgetCmd timeout community ipv.formatStr port oid
    let cmd := env.run cmdstr
    if cmd.returncode ≠ 0 then
      (.error (classifyGet cmd cmdstr ipv.formatStr port), [cmdstr])
    else
      (.ok (snmpget_process cmd.stdout), [cmdstr])

/-! ## `snmpgetbulk` (snmp.py:138-185) -/

/-- The `oids` argument of `snmpgetbulk` may be a list or (dynamically
typed) a bare string; `if type(oids) is not list: oids = [oids]`. -/
inductive OidsArg where
  | single (s : List Char)
  | listArg (l : List (List Char))
  deriving DecidableEq, Repr

/-- The list `snmpgetbulk` works with after the `type(oids) is not list`
normalization (snmp.py:155-156). -/
def OidsArg.asList : OidsArg → List (List Char)
  | .single s => [s]
  | .listArg l => l

/-- The command string of `snmpgetbulk` (snmp.py:158-159). -/
def snmpgetbulkCmd (timeout community ipaddress port : List Char)
    (oidList : List (List Char)) : List Char :=
  "snmpget -OQfn -Pe -t ".data ++ timeout ++ " -r 0 -v 2c -c ".data ++
    community ++ " ".data ++ ipaddress ++ ":".data ++ port ++ " ".data ++
    joinSpace oidList

/-- The loop body of `snmpgetbulk` (snmp.py:174-183): split the line at the
first `" = "`, blank out a No Such Instance value. `none` models the
`IndexError` raised by `item[1]` when the line has no separator. -/
def bulkLine (line : List Char) :
    Option (List Char × Option (List Char)) :=
  match splitOnce sepEq line with
  | [oid, value] =>
    some (oid, if containsSub noSuchInstanceMark value then none else some value)
  | _ => none

/-- The result processing loop of `snmpgetbulk` over the decoded stdout
lines (snmp.py:172-185). -/
def bulkLines : List (List Char) →
    Except PyErr (List (List Char × Option (List Char)))
  | [] => .ok []
  | line :: rest =>
    match bulkLine line with
    | none => .error .indexError
    | some p => (bulkLines rest).map (p :: ·)

/-- The result processing of `snmpgetbulk` on the raw stdout bytes. -/
def snmpgetbulk_process (stdoutBytes : List Char) :
    Except PyErr (List (List Char × Option (List Char))) :=
  bulkLines (splitlinesB stdoutBytes)

/-- Transcribes `snmpgetbulk(community, ipaddress, oids, port, timeout)`. -/
def snmpgetbulk (env : Env) (community ipaddress : List Char)
    (oids : OidsArg) (port timeout : List Char) :
    Except PyErr (List (List Char × Option (List Char))) × List (List Char) :=
  match validate_ip_address env ipaddress with
  | .error e => (.error e, [])
  | .ok ipv =>
    let cmdstr := snmpgetbulkCmd timeout community ipv.formatStr port oids.asList
    let cmd := env.run cmdstr
    if cmd.returncode ≠ 0 then
      (.error (classifyGet cmd cmdstr ipv.formatStr port), [cmdstr])
    else
      (snmpgetbulk_process cmd.stdout, [cmdstr])

/-! ## `snmpwalk` (snmp.py:188-231)

Its result processing is a line-for-line copy of `snmpgetbulk`'s; it is
transcribed separately all the same. -/

/-- The command string of `snmpwalk` (snmp.py:204-205). -/
def snmpwalkCmd (timeout community ipaddress port oid : List Char) :
    List Char :=
  "snmpwalk -OQfn -Pe -t ".data ++ timeout ++ " -r 0 -v 2c -c ".data ++
    community ++ " ".data ++ ipaddress ++ ":".data ++ port ++ " ".data ++ oid

/-- The loop body of `snmpwalk` (snmp.py:220-229). -/
def walkLine (line : List Char) :
    Option (List Char × Option (List Char)) :=
  match splitOnce sepEq line with
  | [oid, value] =>
    some (oid, if containsSub noSuchInstanceMark value then none else some value)
  | _ => none

/-- The result processing loop of `snmpwalk` (snmp.py:218-231). -/
def walkLines : List (List Char) →
    Except PyErr (List (List Char × Option (List Char)))
  | [] => .ok []
  | line :: rest =>
    match walkLine line with
    | none => .error .indexError
    | some p => (walkLines rest).map (p :: ·)

/-- The result processing of `snmpwalk` on the raw stdout bytes. -/
def snmpwalk_process (stdoutBytes : List Char) :
    Except PyErr (List (List Char × Option (List Char))) :=
  walkLines (splitlinesB stdoutBytes)

/-- Transcribes `snmpwalk(community, ipaddress, oid, port, timeout)`. -/
def snmpwalk (env : Env) (community ipaddress oid port timeout : List Char) :
    Except PyErr (List (List Char × Option (List Char))) × List (List Char) :=
  match validate_ip_address env ipaddress with
  | .error e => (.error e, [])
  | .ok ipv =>
    let cmdstr := snmpwalkCmd timeout community ipv.formatStr port oid
    let cmd := env.run cmdstr
    if cmd.returncode ≠ 0 then
      (.error (classifyGet cmd cmdstr ipv.formatStr port), [cmdstr])
    else
      (snmpwalk_process cmd.stdout, [cmdstr])

/-! ## `snmptable` (snmp.py:234-290)

The result processing feeds the decoded lines, minus the first two (table
title and blank line), to `csv.DictReader` with the Record Separator as
delimiter, then optionally sorts the row dictionaries by `sortkey`. -/

/-- One cell of a row dictionary as `csv.DictReader` builds it: a normal
string field, the `restval` (`None`) filled in for a short row, or the
`restkey` list of leftover fields of a long row. -/
inductive CellVal where
  | cell (v : List Char)
  | restvalNone
  | extras (vs : List (List Char))
  deriving DecidableEq, Repr

/-- A row dictionary: insertion-ordered association list, like a Python
`dict`. The `none` key is `DictReader`'s `restkey` (`None`). -/
abbrev TableRow := List (Option (List Char) × CellVal)

/-- Assignment `d[k] = v` on an insertion-ordered `dict`: update in place if the key
exists, else append. -/
def dictInsert (k : Option (List Char)) (v : CellVal) :
    List (Option (List Char) × CellVal) →
      List (Option (List Char) × CellVal)
  | [] => [(k, v)]
  | (k2, v2) :: t =>
    if k2 = k then (k, v) :: t else (k2, v2) :: dictInsert k v t

/-- Parser state of the `csv.reader` state machine (CPython `_csv.c`,
default dialect: `quotechar` `"`, `doublequote=True`, no escape char). The
start-of-record state is handled separately in `csvLinesGo` since it
differs from `startField` only on an empty line. -/
inductive CsvSt where
  | startField
  | inField
  | inQuoted
  | quoteInQuoted
  deriving DecidableEq, Repr

/-- Result of running the csv state machine over one input line: either a
complete record, or the fields and current-field text of a record whose
quoted field is still open at the end of the line. -/
inductive CsvRes where
  | record (r : List (List Char))
  | continued (fields : List (List Char)) (cur : List Char)
  deriving DecidableEq, Repr

/-- The per-character csv parsing loop. In `startField` a quote opens a
quoted field; inside a field a quote is an ordinary character; inside a
quoted field the delimiter is literal and a quote either doubles to a
literal quote, ends the field at a delimiter, or (non-strict mode) falls
back into the unquoted field. At end of line an open quoted field carries
over to the next input line (the line strings come from `splitlines`, so
no terminator character is added between them, matching `csv.reader` on a
list of terminator-less strings). -/
def csvChars (fields : List (List Char)) (cur : List Char) (st : CsvSt) :
    List Char → CsvRes
  | [] =>
    match st with
    | .inQuoted => .continued fields cur
    | _ => .record (fields ++ [cur])
  | c :: rest =>
    match st with
    | .startField =>
      if c = '"' then csvChars fields cur .inQuoted rest
      else if c = delimiterRS then
        csvChars (fields ++ [cur]) [] .startField rest
      else csvChars fields (cur ++ [c]) .inField rest
    | .inField =>
      if c = delimiterRS then csvChars (fields ++ [cur]) [] .startField rest
      else csvChars fields (cur ++ [c]) .inField rest
    | .inQuoted =>
      if c = '"' then csvChars fields cur .quoteInQuoted rest
      else csvChars fields (cur ++ [c]) .inQuoted rest
    | .quoteInQuoted =>
      if c = '"' then csvChars fields (cur ++ ['"']) .inQuoted rest
      else if c = delimiterRS then
        csvChars (fields ++ [cur]) [] .startField rest
      else csvChars fields (cur ++ [c]) .inField rest

/-- The line loop of `csv.reader`: `pending` carries a record whose quoted
field spans line boundaries. A fresh empty line is the start-of-record
case and yields the empty (zero-field) record; at end of input an open
quoted field is emitted as the final record. -/
def csvLinesGo (pending : Option (List (List Char) × List Char)) :
    List (List Char) → List (List (List Char))
  | [] =>
    match pending with
    | none => []
    | some (fields, cur) => [fields ++ [cur]]
  | line :: rest =>
    match pending with
    | none =>
      if line.isEmpty then [] :: csvLinesGo none rest
      else
        match csvChars [] [] .startField line with
        | .record r => r :: csvLinesGo none rest
        | .continued f c => csvLinesGo (some (f, c)) rest
    | some (fields, cur) =>
      match csvChars fields cur .inQuoted line with
      | .record r => r :: csvLinesGo none rest
      | .continued f c => csvLinesGo (some (f, c)) rest

/-- Runs `csv.reader(lines, delimiter='\x1E')` over the decoded,
terminator-less lines, yielding one record (list of fields) per row. -/
def csvReadRecords (lines : List (List Char)) : List (List (List Char)) :=
  csvLinesGo none lines

/-- Transcribes `csv.DictReader.__next__`'s dictionary construction:
`d = dict(zip(fieldnames, row))`, then leftover fields under `restkey` or
missing fields filled with `restval = None`. -/
def buildRow (fieldnames row : List (List Char)) : TableRow :=
  let base := (fieldnames.zip row).foldl
    (fun d p => dictInsert (some p.1) (.cell p.2) d) []
  if fieldnames.length < row.length then
    dictInsert none (.extras (row.drop fieldnames.length)) base
  else if row.length < fieldnames.length then
    (fieldnames.drop row.length).foldl
      (fun d k => dictInsert (some k) .restvalNone d) base
  else base

/-- Runs `csv.DictReader` over the remaining lines: the first parsed
record is the header (`fieldnames`), every following non-empty record
becomes a row dictionary (empty records are skipped by
`DictReader.__next__`). -/
def dictReadAll (lines : List (List Char)) : List TableRow :=
  match csvReadRecords lines with
  | [] => []
  | fieldnames :: rest =>
    (rest.filter (fun r => !r.isEmpty)).map (buildRow fieldnames)

/-- Lookup `i[sortkey]`: dictionary lookup, `none` modelling a `KeyError`. -/
def rowLookup (k : List Char) (row : TableRow) : Option CellVal :=
  (row.find? (fun p => decide (p.1 = some k))).map (·.2)

/-- The sort key Python actually compares: present iff the lookup succeeds
and yields a string cell (a `restval None` cell would raise `TypeError` on
comparison). -/
def sortKeyVal (k : List Char) (row : TableRow) : Option (List Char) :=
  match rowLookup k row with
  | some (.cell v) => some v
  | _ => none

/-- The row order `results.sort(key=lambda i: i[sortkey])` compares by:
ascending Python string comparison of the sort-key cells. -/
def rowLe (k : List Char) (r1 r2 : TableRow) : Prop :=
  strLe ((sortKeyVal k r1).getD []) ((sortKeyVal k r2).getD []) = true

instance (k : List Char) : DecidableRel (rowLe k) := by
  intro r1 r2
  unfold rowLe
  infer_instance

/-- Transcribes `results.sort(key=lambda i: i[sortkey])`: CPython's `list.sort` is a
stable ascending sort by the extracted keys, modelled by `insertionSort`
(which is stable for this total preorder). Key extraction raises
`KeyError` for a row without the column; with at least two rows a `None`
key value reaches a comparison and raises `TypeError`. -/
def sortTable (k : List Char) (rows : List TableRow) :
    Except PyErr (List TableRow) :=
  if rows.all (fun r => (rowLookup k r).isSome) then
    if rows.all (fun r => (sortKeyVal k r).isSome) then
      .ok (List.insertionSort (rowLe k) rows)
    else if rows.length ≤ 1 then .ok rows
    else .error .typeError
  else .error .keyError

/-- The result processing of `snmptable` (snmp.py:276-290): decode and
split stdout, drop the table title and the blank line after it
(`cmdoutput[2:]`), run the csv reader, optionally sort. `if sortkey:` is a
Python truthiness test, so an empty sort key means no sorting. -/
def snmptable_process (sortkey : Option (List Char))
    (stdoutBytes : List Char) : Except PyErr (List TableRow) :=
  let cmdoutput := (splitlinesB stdoutBytes).drop 2
  let results := dictReadAll cmdoutput
  match sortkey with
  | none => .ok results
  | some k => if k.isEmpty then .ok results else sortTable k results

/-- The command string of `snmptable` (snmp.py:258-260). -/
def snmptableCmd (delim : Char)
    (timeout community ipaddress port oid : List Char) : List Char :=
  "snmptable -m ALL -Pe -t ".data ++ timeout ++
    " -r 0 -v 2c -Cif ".data ++ [delim] ++ " -c ".data ++ community ++
    " ".data ++ ipaddress ++ ":".data ++ port ++ " ".data ++ oid

/-- Transcribes `snmptable(community, ipaddress, oid, port, sortkey, timeout)`. -/
def snmptable (env : Env) (community ipaddress oid port : List Char)
    (sortkey : Option (List Char)) (timeout : List Char) :
    Except PyErr (List TableRow) × List (List Char) :=
  match validate_ip_address env ipaddress with
  | .error e => (.error e, [])
  | .ok ipv =>
    let cmdstr := snmptableCmd delimiterRS timeout community ipv.formatStr port oid
    let cmd := env.run cmdstr
    if cmd.returncode ≠ 0 then
      (.error (classifyTable cmd cmdstr ipv.formatStr port oid), [cmdstr])
    else
      (snmptable_process sortkey cmd.stdout, [cmdstr])

/-! ## Specification-side predicates and concrete instantiations -/

/-- What the claims say one parsed line must look like: the pair's first
component is the text before the *first* occurrence of `" = "` (no shorter
decomposition exists), and its second component is the text after it,
blanked out exactly when it contains the No Such Instance marker. -/
def bulkLineSpec (line : List Char)
    (pair : List Char × Option (List Char)) : Prop :=
  ∃ rawv,
    line = pair.1 ++ sepEq ++ rawv ∧
    (∀ a b, line = a ++ sepEq ++ b → pair.1.length ≤ a.length) ∧
    pair.2 = if containsSub noSuchInstanceMark rawv then none else some rawv

/-- The row dictionary the claims describe: the header zipped against the
data record, every cell a plain string field. -/
def mkCells (fieldnames fields : List (List Char)) : TableRow :=
  (fieldnames.zip fields).map (fun p => (some p.1, CellVal.cell p.2))

/-- An environment in which name resolution echoes the input, address
parsing succeeds with the same text, and every command completes with the
given exit status and output. -/
def constEnv (code : Int) (out err : List Char) : Env where
  getaddrinfo := fun s => some s
  parseIpAddress := fun s => some ⟨s⟩
  run := fun _ => ⟨code, out, err⟩

/-- An environment in which name resolution always fails
(`socket.gaierror`). -/
def noResolveEnv : Env where
  getaddrinfo := fun _ => none
  parseIpAddress := fun s => some ⟨s⟩
  run := fun _ => ⟨0, [], []⟩

/-- A small `snmptable` stdout: title, blank line, header and three data
rows (with a duplicated `ifIndex` value to exercise sort stability). -/
def tableStdoutEx : List Char :=
  "SNMP table: IF-MIB::ifTable\n\nifIndex\x1EifDescr\n2\x1Eb\n1\x1Ea\n2\x1Ec\n".data

/-! ## Lemmas: the substring / first-occurrence theory -/

theorem leadsWith_iff (p l : List Char) :
    leadsWith p l = true ↔ ∃ t, l = p ++ t := by
  induction p generalizing l with
  | nil => simp [leadsWith]
  | cons c cs ih =>
    cases l with
    | nil => simp [leadsWith]
    | cons d ds =>
      simp only [leadsWith, Bool.and_eq_true, decide_eq_true_eq, ih]
      constructor
      · rintro ⟨rfl, t, rfl⟩
        exact ⟨t, rfl⟩
      · rintro ⟨t, h⟩
        cases h
        exact ⟨rfl, t, rfl⟩

theorem findSub_le_length {pat l : List Char} {i : Nat}
    (h : findSub pat l = some i) : i ≤ l.length := by
  induction l generalizing i with
  | nil =>
    unfold findSub at h
    split at h
    · simp only [Option.some.injEq] at h
      omega
    · simp at h
  | cons c t ih =>
    unfold findSub at h
    split at h
    · simp only [Option.some.injEq] at h
      omega
    · rcases Option.map_eq_some'.mp h with ⟨j, hj, rfl⟩
      exact Nat.succ_le_succ (ih hj)

theorem findSub_leads {pat l : List Char} {i : Nat}
    (h : findSub pat l = some i) : leadsWith pat (l.drop i) = true := by
  induction l generalizing i with
  | nil =>
    unfold findSub at h
    split at h
    · simp_all
    · simp at h
  | cons c t ih =>
    unfold findSub at h
    split at h
    · rename_i hc
      cases h
      simpa using hc
    · rcases Option.map_eq_some'.mp h with ⟨j, hj, rfl⟩
      simpa using ih hj

theorem findSub_min {pat l : List Char} {i : Nat}
    (h : findSub pat l = some i) (j : Nat)
    (hj : leadsWith pat (l.drop j) = true) : i ≤ j := by
  induction l generalizing i j with
  | nil =>
    unfold findSub at h
    split at h
    · cases h
      exact Nat.zero_le j
    · simp at h
  | cons c t ih =>
    unfold findSub at h
    split at h
    · cases h
      exact Nat.zero_le j
    · rename_i hc
      rcases Option.map_eq_some'.mp h with ⟨i2, hi2, rfl⟩
      cases j with
      | zero => simp_all
      | succ j2 => exact Nat.succ_le_succ (ih hi2 j2 (by simpa using hj))

theorem findSub_isSome_of_leads {pat l : List Char} (j : Nat)
    (hj : leadsWith pat (l.drop j) = true) : (findSub pat l).isSome := by
  induction l generalizing j with
  | nil =>
    unfold findSub
    simp only [List.drop_nil] at hj
    simp [hj]
  | cons c t ih =>
    unfold findSub
    split
    · simp
    · rename_i hc
      cases j with
      | zero => simp_all
      | succ j2 =>
        have := ih j2 (by simpa using hj)
        simpa using this

theorem decomp_of_leads {pat l : List Char} {i : Nat}
    (h : leadsWith pat (l.drop i) = true) :
    l = l.take i ++ pat ++ l.drop (i + pat.length) := by
  rcases (leadsWith_iff pat (l.drop i)).mp h with ⟨t, ht⟩
  have h1 : l.drop (i + pat.length) = t := by
    rw [← List.drop_drop, ht, List.drop_left]
  conv_lhs => rw [← List.take_append_drop i l]
  rw [ht, h1, List.append_assoc]

theorem leads_of_decomp {pat a b : List Char} :
    leadsWith pat ((a ++ pat ++ b).drop a.length) = true := by
  rw [List.append_assoc, List.drop_left]
  exact (leadsWith_iff pat (pat ++ b)).mpr ⟨b, rfl⟩

theorem containsSub_iff {pat l : List Char} :
    containsSub pat l = true ↔ ∃ a b, l = a ++ pat ++ b := by
  constructor
  · intro h
    rcases Option.isSome_iff_exists.mp h with ⟨i, hi⟩
    exact ⟨l.take i, l.drop (i + pat.length), decomp_of_leads (findSub_leads hi)⟩
  · rintro ⟨a, b, rfl⟩
    exact findSub_isSome_of_leads a.length leads_of_decomp

/-! ## Lemmas: the bulk/walk line parser -/

theorem bulkLine_of_contains {line : List Char}
    (h : containsSub sepEq line = true) :
    ∃ p, bulkLine line = some p ∧ bulkLineSpec line p := by
  rcases Option.isSome_iff_exists.mp h with ⟨i, hi⟩
  have hlead := findSub_leads hi
  have hdecomp := decomp_of_leads hlead
  have hlen : i ≤ line.length := findSub_le_length hi
  have htake : (line.take i).length = i := by
    simp [List.length_take, Nat.min_eq_left hlen]
  refine ⟨(line.take i,
      if containsSub noSuchInstanceMark (line.drop (i + sepEq.length)) then none
      else some (line.drop (i + sepEq.length))), ?_, ?_⟩
  · unfold bulkLine splitOnce
    rw [hi]
  · refine ⟨line.drop (i + sepEq.length), hdecomp, ?_, rfl⟩
    intro a b hab
    have : leadsWith sepEq (line.drop a.length) = true := by
      rw [hab]; exact leads_of_decomp
    rw [htake]
    exact findSub_min hi a.length this

theorem bulkLine_none {line : List Char}
    (h : containsSub sepEq line = false) : bulkLine line = none := by
  have : findSub sepEq line = none := by
    rcases h2 : findSub sepEq line with _ | i
    · rfl
    · rw [containsSub, h2] at h
      simp at h
  unfold bulkLine splitOnce
  rw [this]

theorem bulkLines_ok {lines : List (List Char)}
    (h : ∀ l ∈ lines, containsSub sepEq l = true) :
    ∃ pairs, bulkLines lines = .ok pairs ∧
      pairs.length = lines.length ∧ List.Forall₂ bulkLineSpec lines pairs := by
  induction lines with
  | nil => exact ⟨[], rfl, rfl, .nil⟩
  | cons l t ih =>
    rcases bulkLine_of_contains (h l (List.mem_cons_self l t)) with ⟨p, hp, hs⟩
    rcases ih (fun x hx => h x (List.mem_cons_of_mem l hx)) with ⟨ps, hps, hl, hf⟩
    refine ⟨p :: ps, ?_, by simp [hl], .cons hs hf⟩
    unfold bulkLines
    rw [hp, hps]
    rfl

theorem bulkLines_err {lines : List (List Char)}
    (h : ∃ l ∈ lines, containsSub sepEq l = false) :
    bulkLines lines = .error .indexError := by
  induction lines with
  | nil => simp at h
  | cons l t ih =>
    rcases h with ⟨x, hx, hc⟩
    rcases List.mem_cons.mp hx with rfl | hx2
    · unfold bulkLines
      rw [bulkLine_none hc]
    · unfold bulkLines
      rcases hbl : bulkLine l with _ | p
      · rfl
      · rw [ih ⟨x, hx2, hc⟩]
        rfl

theorem walkLine_eq_bulkLine : ∀ line, walkLine line = bulkLine line :=
  fun _ => rfl

theorem walkLines_eq_bulkLines : ∀ lines, walkLines lines = bulkLines lines := by
  intro lines
  induction lines with
  | nil => rfl
  | cons l t ih =>
    unfold walkLines bulkLines
    rw [ih, walkLine_eq_bulkLine]

/-! ## Lemmas: the table parser -/

theorem dictInsert_append (k : Option (List Char)) (v : CellVal)
    (d : TableRow) (h : ∀ e ∈ d, e.1 ≠ k) :
    dictInsert k v d = d ++ [(k, v)] := by
  induction d with
  | nil => rfl
  | cons e t ih =>
    unfold dictInsert
    rw [if_neg (h e (List.mem_cons_self e t)), ih
      (fun x hx => h x (List.mem_cons_of_mem e hx))]
    rfl

theorem foldl_dictInsert (ps : List (List Char × List Char)) (d : TableRow)
    (hnd : (ps.map (·.1)).Nodup)
    (hdisj : ∀ p ∈ ps, ∀ e ∈ d, e.1 ≠ some p.1) :
    ps.foldl (fun d2 p => dictInsert (some p.1) (.cell p.2) d2) d
      = d ++ ps.map (fun p => (some p.1, CellVal.cell p.2)) := by
  induction ps generalizing d with
  | nil => simp
  | cons p t ih =>
    have hins := dictInsert_append (some p.1) (.cell p.2) d
      (hdisj p (List.mem_cons_self p t))
    have hnd2 : (t.map (·.1)).Nodup := (List.nodup_cons.mp hnd).2
    have hne : ∀ q ∈ t, q.1 ≠ p.1 := by
      intro q hq
      intro hcontra
      have hmem : p.1 ∈ t.map (·.1) := by
        rw [← hcontra]
        exact List.mem_map_of_mem (·.1) hq
      exact (List.nodup_cons.mp hnd).1 hmem
    simp only [List.foldl_cons, hins]
    rw [ih (d ++ [(some p.1, CellVal.cell p.2)]) hnd2 ?_, List.append_assoc]
    · rfl
    · intro q hq e he
      rcases List.mem_append.mp he with h1 | h1
      · exact hdisj q (List.mem_cons_of_mem p hq) e h1
      · rcases List.mem_singleton.mp h1 with rfl
        simp only [ne_eq, Option.some.injEq]
        exact fun hc => hne q hq hc.symm

theorem buildRow_eq_mkCells (fieldnames row : List (List Char))
    (hlen : fieldnames.length = row.length) (hnd : fieldnames.Nodup) :
    buildRow fieldnames row = mkCells fieldnames row := by
  unfold buildRow mkCells
  rw [if_neg (by omega), if_neg (by omega)]
  have hz : (fieldnames.zip row).map (·.1) = fieldnames :=
    List.map_fst_zip fieldnames row (le_of_eq hlen)
  have : ((fieldnames.zip row).map (·.1)).Nodup := by
    rw [hz]
    exact hnd
  simpa using foldl_dictInsert (fieldnames.zip row) [] this (by simp)

theorem rowLookup_mkCells {fieldnames row : List (List Char)}
    {k : List Char} (hlen : fieldnames.length = row.length)
    (hk : k ∈ fieldnames) :
    ∃ v, rowLookup k (mkCells fieldnames row) = some (.cell v) := by
  induction fieldnames generalizing row with
  | nil => simp at hk
  | cons f fs ih =>
    cases row with
    | nil => simp at hlen
    | cons r rs =>
      unfold mkCells at *
      simp only [List.zip_cons_cons, List.map_cons]
      by_cases hf : f = k
      · subst hf
        exact ⟨r, by simp [rowLookup, List.find?]⟩
      · have hk2 : k ∈ fs := by
          rcases List.mem_cons.mp hk with rfl | h2
          · exact absurd rfl hf
          · exact h2
        rcases ih (by simpa using hlen) hk2 with ⟨v, hv⟩
        refine ⟨v, ?_⟩
        unfold rowLookup at *
        simp only [List.find?]
        rw [show (decide ((some f : Option (List Char)) = some k)) = false by
          simp [hf]]
        exact hv

theorem sortKeyVal_mkCells {fieldnames row : List (List Char)}
    {k : List Char} (hlen : fieldnames.length = row.length)
    (hk : k ∈ fieldnames) :
    (sortKeyVal k (mkCells fieldnames row)).isSome := by
  rcases rowLookup_mkCells hlen hk with ⟨v, hv⟩
  unfold sortKeyVal
  rw [hv]
  rfl

/-! ## Lemmas: Python string order is a total preorder -/

theorem char_eq_iff_toNat {a b : Char} : a = b ↔ a.toNat = b.toNat := by
  constructor
  · rintro rfl
    rfl
  · intro h
    rcases a with ⟨av, ha⟩
    rcases b with ⟨bv, hb⟩
    simp only [Char.toNat] at h
    congr 1
    exact UInt32.ext h

theorem strLe_refl (l : List Char) : strLe l l = true := by
  induction l with
  | nil => rfl
  | cons c t ih => simp [strLe, ih]

theorem strLe_total (a b : List Char) :
    strLe a b = true ∨ strLe b a = true := by
  induction a generalizing b with
  | nil => exact Or.inl rfl
  | cons x xs ih =>
    cases b with
    | nil => exact Or.inr rfl
    | cons y ys =>
      by_cases hxy : x = y
      · subst hxy
        simpa [strLe] using ih ys
      · rcases Nat.lt_trichotomy x.toNat y.toNat with hlt | heq | hgt
        · exact Or.inl (by simp [strLe, hxy, hlt])
        · exact absurd (char_eq_iff_toNat.mpr heq) hxy
        · refine Or.inr (by simp [strLe, Ne.symm hxy, hgt])

theorem strLe_trans {a b c : List Char}
    (h1 : strLe a b = true) (h2 : strLe b c = true) : strLe a c = true := by
  induction a generalizing b c with
  | nil => rfl
  | cons x xs ih =>
    cases b with
    | nil => simp [strLe] at h1
    | cons y ys =>
      cases c with
      | nil => simp [strLe] at h2
      | cons z zs =>
        by_cases hxy : x = y
        · subst hxy
          by_cases hyz : x = z
          · subst hyz
            simp only [strLe, if_pos rfl] at *
            exact ih h1 h2
          · have hlt2 : x.toNat < z.toNat := by
              simpa [strLe, hyz] using h2
            simp [strLe, hyz, hlt2]
        · have hlt1 : x.toNat < y.toNat := by
            simpa [strLe, hxy] using h1
          by_cases hyz : y = z
          · subst hyz
            simp [strLe, hxy, hlt1]
          · have hlt2 : y.toNat < z.toNat := by
              simpa [strLe, hyz] using h2
            have hxz : x ≠ z := by
              intro hcontra
              subst hcontra
              exact absurd (Nat.lt_trans hlt1 hlt2) (lt_irrefl _)
            simp [strLe, hxz, Nat.lt_trans hlt1 hlt2]

instance (k : List Char) : IsTotal TableRow (rowLe k) :=
  ⟨fun a b => strLe_total _ _⟩

instance (k : List Char) : IsTrans TableRow (rowLe k) :=
  ⟨fun _ _ _ h1 h2 => strLe_trans h1 h2⟩

/-! ## Lemmas: stability of the modelled `list.sort` -/

theorem filter_orderedInsert {α : Type} (r : α → α → Prop) [DecidableRel r]
    (p : α → Bool) (a : α) (l : List α) (hpa : p a = true)
    (hall : ∀ b, p b = true → r a b) :
    (List.orderedInsert r a l).filter p = a :: l.filter p := by
  induction l with
  | nil => simp [List.orderedInsert, hpa]
  | cons b t ih =>
    unfold List.orderedInsert
    split
    · simp [List.filter, hpa]
    · rename_i hr
      have hpb : p b = false := by
        rcases h : p b
        · rfl
        · exact absurd (hall b h) hr
      simp only [List.filter, hpb, ih]

theorem filter_orderedInsert_neg {α : Type} (r : α → α → Prop)
    [DecidableRel r] (p : α → Bool) (a : α) (l : List α)
    (hpa : p a = false) :
    (List.orderedInsert r a l).filter p = l.filter p := by
  induction l with
  | nil => simp [List.orderedInsert, hpa]
  | cons b t ih =>
    unfold List.orderedInsert
    split
    · simp [List.filter, hpa]
    · simp only [List.filter, ih]

theorem filter_insertionSort {α : Type} (r : α → α → Prop) [DecidableRel r]
    (p : α → Bool) (hp : ∀ a b, p a = true → p b = true → r a b)
    (l : List α) :
    (List.insertionSort r l).filter p = l.filter p := by
  induction l with
  | nil => rfl
  | cons a t ih =>
    unfold List.insertionSort
    rcases hpa : p a
    · rw [filter_orderedInsert_neg r p a _ hpa]
      simp only [List.filter, hpa, ih]
    · rw [filter_orderedInsert r p a _ hpa (fun b hb => hp a b hpa hb)]
      simp only [List.filter, hpa, ih]

/-! ## Lemmas: assembling the table pipeline -/

theorem dictReadAll_eq {lines : List (List Char)}
    {header : List (List Char)} {recs : List (List (List Char))}
    (hrecs : csvReadRecords lines = header :: recs)
    (hne : ∀ r ∈ recs, r ≠ []) :
    dictReadAll lines = recs.map (buildRow header) := by
  have h1 : dictReadAll lines
      = (recs.filter (fun r => !r.isEmpty)).map (buildRow header) := by
    unfold dictReadAll
    rw [hrecs]
  have h2 : recs.filter (fun r => !r.isEmpty) = recs := by
    rw [List.filter_eq_self]
    intro x hx
    simpa using hne x hx
  rw [h1, h2]

theorem sortKeyVal_isSome_rowLookup {k : List Char} {r : TableRow}
    (h : (sortKeyVal k r).isSome) : (rowLookup k r).isSome := by
  unfold sortKeyVal at h
  rcases h2 : rowLookup k r with _ | v
  · rw [h2] at h
    simp at h
  · rfl

theorem sortTable_sorts {k : List Char} {rows : List TableRow}
    (hall : ∀ r ∈ rows, (sortKeyVal k r).isSome) :
    sortTable k rows = .ok (List.insertionSort (rowLe k) rows) := by
  unfold sortTable
  rw [if_pos, if_pos]
  · exact List.all_eq_true.mpr (fun r hr => hall r hr)
  · exact List.all_eq_true.mpr
      (fun r hr => sortKeyVal_isSome_rowLookup (hall r hr))

/-! ## The claims -/

/-- C1: on a successful bulk get whose stdout splits into `n` lines, each
containing the `" = "` separator, `snmpgetbulk`'s result processing returns
exactly `n` (OID, value) pairs in line order; each line is split only at
the *first* separator occurrence (no decomposition with a shorter OID part
exists, so values containing `" = "` stay intact), and a line whose value
part contains the No Such Instance marker yields an absent value at that
position while all other positions are untouched. -/
theorem bulk_parse_pairs_per_line (stdout : List Char)
    (h : ∀ l ∈ splitlinesB stdout, containsSub sepEq l = true) :
    ∃ pairs, snmpgetbulk_process stdout = .ok pairs ∧
      pairs.length = (splitlinesB stdout).length ∧
      List.Forall₂ bulkLineSpec (splitlinesB stdout) pairs :=
  bulkLines_ok h

theorem bulk_parse_pairs_per_line_witness :
    (∀ l ∈ splitlinesB ".1.2.1 = Vlan1\n.1.3 = No Such Instance currently exists at this OID\n".data,
        containsSub sepEq l = true) ∧
    (∃ pairs,
      snmpgetbulk_process ".1.2.1 = Vlan1\n.1.3 = No Such Instance currently exists at this OID\n".data
          = .ok pairs ∧
      pairs.length = (splitlinesB ".1.2.1 = Vlan1\n.1.3 = No Such Instance currently exists at this OID\n".data).length ∧
      List.Forall₂ bulkLineSpec
        (splitlinesB ".1.2.1 = Vlan1\n.1.3 = No Such Instance currently exists at this OID\n".data)
        pairs) :=
  ⟨by decide, bulk_parse_pairs_per_line _ (by decide)⟩

/-- C6: the result processing of `snmpwalk` computes the same function as
the result processing of `snmpgetbulk`: on every stdout byte string they
produce structurally equal results. -/
theorem walk_process_eq_bulk_process :
    ∀ stdout : List Char, snmpwalk_process stdout = snmpgetbulk_process stdout :=
  fun stdout => walkLines_eq_bulkLines (splitlinesB stdout)

/-- C9: the bulk and walk parsers assume every line contains `" = "`: if
some line of stdout lacks the separator, both fail with the modelled
`IndexError` (the `item[1]` access is out of bounds) instead of producing
a pair with an absent value; if every line contains the separator, the
access is always in bounds and both parsers succeed. -/
theorem bulk_walk_separator_assumption (stdout : List Char) :
    ((∃ l ∈ splitlinesB stdout, containsSub sepEq l = false) →
      snmpgetbulk_process stdout = .error .indexError ∧
      snmpwalk_process stdout = .error .indexError) ∧
    ((∀ l ∈ splitlinesB stdout, containsSub sepEq l = true) →
      (∃ pairs, snmpgetbulk_process stdout = .ok pairs) ∧
      (∃ pairs, snmpwalk_process stdout = .ok pairs)) := by
  constructor
  · intro h
    have hb : snmpgetbulk_process stdout = .error .indexError := bulkLines_err h
    refine ⟨hb, ?_⟩
    show walkLines (splitlinesB stdout) = .error .indexError
    rw [walkLines_eq_bulkLines]
    exact hb
  · intro h
    rcases bulkLines_ok h with ⟨pairs, h1, -, -⟩
    refine ⟨⟨pairs, h1⟩, ⟨pairs, ?_⟩⟩
    show walkLines (splitlinesB stdout) = .ok pairs
    rw [walkLines_eq_bulkLines]
    exact h1

theorem bulk_walk_separator_assumption_witness :
    ((∃ l ∈ splitlinesB "IF-MIB::ifDescr.1\n".data,
        containsSub sepEq l = false) ∧
      snmpgetbulk_process "IF-MIB::ifDescr.1\n".data = .error .indexError) ∧
    ((∀ l ∈ splitlinesB ".1.1 = 6\n".data, containsSub sepEq l = true) ∧
      ∃ pairs, snmpgetbulk_process ".1.1 = 6\n".data = .ok pairs) :=
  ⟨⟨by decide, ((bulk_walk_separator_assumption _).1 (by decide)).1⟩,
   ⟨by decide, ((bulk_walk_separator_assumption _).2 (by decide)).1⟩⟩

/-- C10: calling `snmpgetbulk` with a single OID string that is not a list
behaves identically to calling it with the one-element list of that OID:
the `type(oids) is not list` normalization wraps the bare value before the
command is built. -/
theorem bulk_single_oid_normalization (env : Env)
    (community ipaddress s port timeout : List Char) :
    snmpgetbulk env community ipaddress (.single s) port timeout
      = snmpgetbulk env community ipaddress (.listArg [s]) port timeout := rfl

/-- C8: every query operation called with an address on which name
resolution fails raises the invalid-address `SNMPError` (whose message
names the input) and spawns no subprocess at all: the recorded command
list is empty, so no classification or output parsing ever runs. -/
theorem invalid_address_stops_before_subprocess (env : Env)
    (community ipaddress oid port timeout : List Char)
    (oids : OidsArg) (sortkey : Option (List Char))
    (h : env.getaddrinfo ipaddress = none) :
    snmpget env community ipaddress oid port timeout
        = (.error (.snmpError (invalidAddressMsg ipaddress)), []) ∧
    snmpgetbulk env community ipaddress oids port timeout
        = (.error (.snmpError (invalidAddressMsg ipaddress)), []) ∧
    snmpwalk env community ipaddress oid port timeout
        = (.error (.snmpError (invalidAddressMsg ipaddress)), []) ∧
    snmptable env community ipaddress oid port sortkey timeout
        = (.error (.snmpError (invalidAddressMsg ipaddress)), []) ∧
    containsSub ipaddress (invalidAddressMsg ipaddress) = true := by
  have hv : validate_ip_address env ipaddress
      = .error (.snmpError (invalidAddressMsg ipaddress)) := by
    unfold validate_ip_address
    rw [h]
  refine ⟨?_, ?_, ?_, ?_, containsSub_iff.mpr ⟨_, _, rfl⟩⟩
  · unfold snmpget
    rw [hv]
  · unfold snmpgetbulk
    rw [hv]
  · unfold snmpwalk
    rw [hv]
  · unfold snmptable
    rw [hv]

theorem invalid_address_stops_before_subprocess_witness :
    noResolveEnv.getaddrinfo "badhost".data = none ∧
    snmpget noResolveEnv "public".data "badhost".data ".1.3.6".data
        "161".data "3".data
      = (.error (.snmpError (invalidAddressMsg "badhost".data)), []) :=
  ⟨rfl,
    (invalid_address_stops_before_subprocess noResolveEnv "public".data
      "badhost".data ".1.3.6".data "161".data "3".data
      (.single ".1.3.6".data) none rfl).1⟩

/-- C3 counterexample: the claim quantifies over *every* failed table query
whose stderr contains `Was that a table?`, but the timeout check runs
first; a stderr carrying both markers is classified as the timeout
`SNMPError`, not the not-a-table one. -/
theorem classify_counterexample :
    classifyTable
        ⟨1, [], "snmptable: No Response from 10.0.0.1:161. Was that a table?".data⟩
        "cmd".data "10.0.0.1".data "161".data "IF-MIB::ifEntry".data
      = .snmpError (timeoutMsg "10.0.0.1".data "161".data) ∧
    PyErr.snmpError (timeoutMsg "10.0.0.1".data "161".data)
      ≠ .snmpError (notATableMsg "IF-MIB::ifEntry".data) := by
  constructor
  · rfl
  · decide

/-- C3 (amended): classification of a failed command is a pure function of
the stderr bytes; whenever stderr contains `No Response from`, both the
get-style and the table classifiers yield the timeout `SNMPError` naming
the address and port; whenever a failed table query's stderr contains
`Was that a table?` and no `No Response from`, the table classifier yields
the not-a-table `SNMPError` whose message includes the requested OID, and
never the catch-all `ChildProcessError`. -/
theorem classify_markers (cmd : CompletedProcess)
    (cmdstr ipaddress port oid : List Char) :
    (containsSub noResponseMark cmd.stderr = true →
      classifyGet cmd cmdstr ipaddress port
          = .snmpError (timeoutMsg ipaddress port) ∧
      classifyTable cmd cmdstr ipaddress port oid
          = .snmpError (timeoutMsg ipaddress port) ∧
      containsSub ipaddress (timeoutMsg ipaddress port) = true ∧
      containsSub port (timeoutMsg ipaddress port) = true) ∧
    (containsSub noResponseMark cmd.stderr = false →
     containsSub wasThatATableMark cmd.stderr = true →
      classifyTable cmd cmdstr ipaddress port oid
          = .snmpError (notATableMsg oid) ∧
      containsSub oid (notATableMsg oid) = true ∧
      ∀ m, classifyTable cmd cmdstr ipaddress port oid
          ≠ .childProcessError m) := by
  constructor
  · intro h
    refine ⟨?_, ?_, ?_, ?_⟩
    · unfold classifyGet check_for_timeout
      rw [h]
      rfl
    · unfold classifyTable check_for_timeout
      rw [h]
      rfl
    · refine containsSub_iff.mpr
        ⟨"Timeout: no response received from ".data, ":".data ++ port, ?_⟩
      simp [timeoutMsg]
    · refine containsSub_iff.mpr
        ⟨"Timeout: no response received from ".data ++ ipaddress ++ ":".data,
          [], ?_⟩
      simp [timeoutMsg]
  · intro h1 h2
    have hcl : classifyTable cmd cmdstr ipaddress port oid
        = .snmpError (notATableMsg oid) := by
      unfold classifyTable check_for_timeout
      rw [h1, h2]
      rfl
    refine ⟨hcl, ?_, ?_⟩
    · refine containsSub_iff.mpr
        ⟨"The snmptable command could not identify ".data,
          " as a table. Please be sure the OID is correct, and that your net-snmp installation has a MIB available for that OID.".data,
          ?_⟩
      simp [notATableMsg]
    · intro m
      rw [hcl]
      simp

theorem classify_markers_witness :
    (containsSub noResponseMark "No Response from 10.0.0.1:161.".data = true ∧
      classifyGet ⟨1, [], "No Response from 10.0.0.1:161.".data⟩ "c".data
          "10.0.0.1".data "161".data
        = .snmpError (timeoutMsg "10.0.0.1".data "161".data)) ∧
    (containsSub noResponseMark "Was that a table? (Maybe not)".data = false ∧
      containsSub wasThatATableMark "Was that a table? (Maybe not)".data = true ∧
      classifyTable ⟨1, [], "Was that a table? (Maybe not)".data⟩ "c".data
          "10.0.0.1".data "161".data "IF-MIB::ifEntry".data
        = .snmpError (notATableMsg "IF-MIB::ifEntry".data)) :=
  ⟨⟨by decide,
    ((classify_markers ⟨1, [], "No Response from 10.0.0.1:161.".data⟩ "c".data
      "10.0.0.1".data "161".data "o".data).1 (by decide)).1⟩,
   ⟨by decide, by decide,
    ((classify_markers ⟨1, [], "Was that a table? (Maybe not)".data⟩ "c".data
      "10.0.0.1".data "161".data "IF-MIB::ifEntry".data).2
        (by decide) (by decide)).1⟩⟩

/-- C4 counterexample: `snmpget`'s result processing neither trims a
trailing newline (the decoded stdout is returned with its terminator
intact) nor recognizes the `No Such Object` marker (such output is
returned as a present string instead of the absent value the claim
requires). -/
theorem scalar_parse_counterexample :
    snmpget_process "Cisco IOS Software\n".data
        = some "Cisco IOS Software\n".data ∧
    snmpget_process "No Such Object available on this agent at this OID\n".data
        = some "No Such Object available on this agent at this OID\n".data := by
  constructor
  · decide
  · decide

/-- C4 (amended): `snmpget`'s result processing decodes stdout and returns
it verbatim — trailing line separator included, with no type coercion; it
returns the absent value exactly when the decoded text contains the
`No Such Instance` marker (`No Such Object` is not recognized). -/
theorem scalar_parse_verbatim (out : List Char) :
    (snmpget_process out = none ↔
      containsSub noSuchInstanceMark out = true) ∧
    (∀ v, snmpget_process out = some v → v = out) := by
  unfold snmpget_process
  constructor
  · constructor
    · intro h
      by_cases hc : containsSub noSuchInstanceMark out = true
      · exact hc
      · rw [if_neg hc] at h
        exact absurd h (by simp)
    · intro h
      rw [if_pos h]
  · intro v hv
    by_cases hc : containsSub noSuchInstanceMark out = true
    · rw [if_pos hc] at hv
      exact absurd hv (by simp)
    · rw [if_neg hc] at hv
      exact (Option.some.injEq _ _ ▸ hv).symm

theorem scalar_parse_verbatim_witness :
    snmpget_process "No Such Instance currently exists at this OID\n".data
      = none :=
  (scalar_parse_verbatim _).1.mpr (by decide)

/-- C5: the code bug. `validate_ip_address`'s docstring ("then back into a
string") and its `-> str` annotation promise the canonical string form,
but the function returns the `ip_address` object itself: on the literal
`127.0.0.1` (in an environment where resolution echoes the literal) the
result is the address object, which is not the promised string value. -/
theorem validate_returns_object_not_string :
    validate_ip_address (constEnv 0 [] []) "127.0.0.1".data
        = .ok (.addrObj ⟨"127.0.0.1".data⟩) ∧
    (Except.ok (PyVal.addrObj ⟨"127.0.0.1".data⟩) : Except PyErr PyVal)
        ≠ .ok (.str "127.0.0.1".data) := by
  constructor
  · rfl
  · simp

/-- C7 counterexample: a failed `snmpget` whose stderr contains
`Unknown host` (and no timeout marker) is classified as the catch-all
`ChildProcessError`, not as the unknown-host `SNMPError` the claim
requires — `check_for_unknown_host` is never invoked by the query. -/
theorem unknown_host_counterexample :
    (snmpget (constEnv 1 [] "snmpget: Unknown host (badswitch)".data)
        "public".data "badswitch".data ".1.3.6".data "161".data "3".data).1
      = .error (.childProcessError (unknownErrorMsg
          (snmpgetCmd "3".data "public".data "badswitch".data "161".data
            ".1.3.6".data)
          "snmpget: Unknown host (badswitch)".data)) ∧
    PyErr.childProcessError (unknownErrorMsg
        (snmpgetCmd "3".data "public".data "badswitch".data "161".data
          ".1.3.6".data)
        "snmpget: Unknown host (badswitch)".data)
      ≠ .snmpError (unknownHostMsg "badswitch".data) := by
  constructor
  · rfl
  · decide

/-- C7 (amended): the `check_for_unknown_host` helper does classify a
failure whose stderr contains `Unknown host` as the unknown-host
`SNMPError` naming the address — but no query operation calls it: the
classification actually applied to a failed get-style command maps every
non-timeout stderr, the `Unknown host` ones included, to the catch-all
`ChildProcessError`. -/
theorem unknown_host_helper_unused (cmd : CompletedProcess)
    (cmdstr ipaddress port : List Char) :
    (containsSub unknownHostMark cmd.stderr = true →
      check_for_unknown_host cmd ipaddress
          = some (.snmpError (unknownHostMsg ipaddress)) ∧
      containsSub ipaddress (unknownHostMsg ipaddress) = true) ∧
    (containsSub noResponseMark cmd.stderr = false →
      classifyGet cmd cmdstr ipaddress port
          = .childProcessError (unknownErrorMsg cmdstr cmd.stderr)) := by
  constructor
  · intro h
    constructor
    · unfold check_for_unknown_host
      rw [if_pos h]
    · refine containsSub_iff.mpr
        ⟨"Unknown host: the SNMP command could not identify ".data,
          " as a valid host.".data, ?_⟩
      simp [unknownHostMsg]
  · intro h
    unfold classifyGet check_for_timeout
    rw [h]
    rfl

/-- C2: on a successful table query whose stdout splits into a two-line
preamble (table title line plus the line after it) followed by the table
lines, `snmptable`'s result processing discards exactly the two-line
preamble and hands the rest to the csv reader; the first parsed delimited
record is the column header, and — when the header has distinct column
names and every subsequent record is non-empty and of header width — each
subsequent record is zipped against the header to form the row mappings,
in order; with a (nonempty) sort key naming a header column it returns the
rows stably sorted ascending by that column's textual value: the result is
a permutation of the unsorted rows, pairwise ordered by Python string
comparison of the key cells, and rows with equal key values keep their
original device-reported order. -/
theorem table_parse_zip_and_sort
    (stdout title blankLine k : List Char) (tableLines : List (List Char))
    (header : List (List Char)) (recs : List (List (List Char)))
    (hsplit : splitlinesB stdout = title :: blankLine :: tableLines)
    (hrecs : csvReadRecords tableLines = header :: recs)
    (hnd : header.Nodup)
    (hrec : ∀ r ∈ recs, r ≠ [] ∧ r.length = header.length)
    (hk : k ∈ header) (hk0 : k ≠ []) :
    snmptable_process none stdout = .ok (recs.map (mkCells header)) ∧
    ∃ sorted, snmptable_process (some k) stdout = .ok sorted ∧
      sorted.Perm (recs.map (mkCells header)) ∧
      sorted.Sorted (rowLe k) ∧
      ∀ v, sorted.filter (fun r => decide (sortKeyVal k r = some v))
          = (recs.map (mkCells header)).filter
              (fun r => decide (sortKeyVal k r = some v)) := by
  have hdrop : (splitlinesB stdout).drop 2 = tableLines := by
    rw [hsplit]
    rfl
  have hrows : dictReadAll tableLines = recs.map (mkCells header) := by
    rw [dictReadAll_eq hrecs (fun r hr => (hrec r hr).1)]
    refine List.map_congr_left (fun r hr => ?_)
    exact buildRow_eq_mkCells _ _ (hrec r hr).2.symm hnd
  have hall : ∀ r ∈ recs.map (mkCells header), (sortKeyVal k r).isSome := by
    intro r hr
    rcases List.mem_map.mp hr with ⟨rec, hrm, rfl⟩
    exact sortKeyVal_mkCells (hrec rec hrm).2.symm hk
  have hke : k.isEmpty = false := by
    cases k with
    | nil => exact absurd rfl hk0
    | cons c t => rfl
  constructor
  · show Except.ok (dictReadAll ((splitlinesB stdout).drop 2)) = _
    rw [hdrop, hrows]
  · refine ⟨List.insertionSort (rowLe k) (recs.map (mkCells header)),
      ?_, ?_, ?_, ?_⟩
    · show (if k.isEmpty then Except.ok (dictReadAll ((splitlinesB stdout).drop 2))
          else sortTable k (dictReadAll ((splitlinesB stdout).drop 2))) = _
      rw [hke, hdrop, hrows]
      exact sortTable_sorts hall
    · exact List.perm_insertionSort (rowLe k) _
    · exact List.sorted_insertionSort (rowLe k) _
    · intro v
      refine filter_insertionSort (rowLe k) _ ?_ _
      intro a b ha hb
      unfold rowLe
      rw [decide_eq_true_eq.mp ha, decide_eq_true_eq.mp hb]
      simpa using strLe_refl v

theorem table_parse_zip_and_sort_witness :
    splitlinesB tableStdoutEx
        = ["SNMP table: IF-MIB::ifTable".data, [],
            "ifIndex\x1EifDescr".data, "2\x1Eb".data, "1\x1Ea".data,
            "2\x1Ec".data] ∧
    csvReadRecords ["ifIndex\x1EifDescr".data, "2\x1Eb".data, "1\x1Ea".data,
          "2\x1Ec".data]
        = [["ifIndex".data, "ifDescr".data], ["2".data, "b".data],
            ["1".data, "a".data], ["2".data, "c".data]] ∧
    snmptable_process none tableStdoutEx
        = .ok ([["2".data, "b".data], ["1".data, "a".data],
            ["2".data, "c".data]].map
              (mkCells ["ifIndex".data, "ifDescr".data])) ∧
    ∃ sorted, snmptable_process (some "ifIndex".data) tableStdoutEx
        = .ok sorted ∧
      sorted.Perm ([["2".data, "b".data], ["1".data, "a".data],
        ["2".data, "c".data]].map
          (mkCells ["ifIndex".data, "ifDescr".data])) ∧
      sorted.Sorted (rowLe "ifIndex".data) ∧
      ∀ v, sorted.filter
            (fun r => decide (sortKeyVal "ifIndex".data r = some v))
          = ([["2".data, "b".data], ["1".data, "a".data],
              ["2".data, "c".data]].map
                (mkCells ["ifIndex".data, "ifDescr".data])).filter
              (fun r => decide (sortKeyVal "ifIndex".data r = some v)) := by
  have h := table_parse_zip_and_sort tableStdoutEx
    "SNMP table: IF-MIB::ifTable".data [] "ifIndex".data
    ["ifIndex\x1EifDescr".data, "2\x1Eb".data, "1\x1Ea".data, "2\x1Ec".data]
    ["ifIndex".data, "ifDescr".data]
    [["2".data, "b".data], ["1".data, "a".data], ["2".data, "c".data]]
    (by decide) (by decide) (by decide) (by decide) (by decide) (by decide)
  exact ⟨by decide, by decide, h.1, h.2⟩

theorem unknown_host_helper_unused_witness :
    (containsSub unknownHostMark "snmpget: Unknown host (badswitch)".data
        = true ∧
      check_for_unknown_host ⟨1, [], "snmpget: Unknown host (badswitch)".data⟩
          "badswitch".data
        = some (.snmpError (unknownHostMsg "badswitch".data))) ∧
    (containsSub noResponseMark "snmpget: Unknown host (badswitch)".data
        = false ∧
      classifyGet ⟨1, [], "snmpget: Unknown host (badswitch)".data⟩ "c".data
          "badswitch".data "161".data
        = .childProcessError (unknownErrorMsg "c".data
            "snmpget: Unknown host (badswitch)".data)) :=
  ⟨⟨by decide,
    ((unknown_host_helper_unused
      ⟨1, [], "snmpget: Unknown host (badswitch)".data⟩ "c".data
      "badswitch".data "161".data).1 (by decide)).1⟩,
   ⟨by decide,
    (unknown_host_helper_unused
      ⟨1, [], "snmpget: Unknown host (badswitch)".data⟩ "c".data
      "badswitch".data "161".data).2 (by decide)⟩⟩

end SnmpSpec
